import Mathlib

/-!
Shallow embedding of the husky inter-service communication substrate:
the TCP frame codec and connection (`cmd` package, gateway.go), the
command registry and dispatcher (`CmdSet`), and the router process's
registration / routing handlers (handle.go).  Bytes are modelled as
natural numbers, byte streams as `List Nat`, fallible operations as
`Except String` / `Option`, and network writes as explicit effect lists.
-/

namespace Husky

/-- `maxMessageSize = 32 << 10` from gateway.go. -/
def maxMessageSize : Nat := 32 * 1024

/-- `sendQueueSize = 16 << 10` from gateway.go. -/
def sendQueueSize : Nat := 16 * 1024

/-- Message-type byte `RawMessage = 0x01`. -/
def RawMessage : Nat := 0x01

/-- Message-type byte `CloseMessage = 0xf0`. -/
def CloseMessage : Nat := 0xf0

/-- Message-type byte `PingMessage = 0xf1`. -/
def PingMessage : Nat := 0xf1

/-- Message-type byte `PongMessage = 0xf2`. -/
def PongMessage : Nat := 0xf2

/-- Message-type byte `AuthMessage = 0xf3`. -/
def AuthMessage : Nat := 0xf3

/-- `binary.BigEndian.PutUint16`: the two big-endian bytes of `v`
truncated to 16 bits (Go `uint16(v)`). -/
def putUint16 (v : Nat) : Nat × Nat :=
  ((v % 65536) / 256, v % 256)

/-- `TCPConn.NewMessageBytes` (gateway.go): reject `len(data) > maxMessageSize`,
otherwise prepend the 3-byte header `[byte(mt), hi, lo]` with the payload
length as a big-endian `uint16`. -/
def NewMessageBytes (mt : Nat) (data : List Nat) : Except String (List Nat) :=
  if data.length > maxMessageSize then
    .error "too large message"
  else
    let (hi, lo) := putUint16 data.length
    .ok (mt % 256 :: hi :: lo :: data)

/-- `TCPConn.ReadMessage` (gateway.go) on an explicit byte stream: read the
3-byte header, decode `n` from bytes 1-2 big-endian; control frames
(Ping/Pong/Close) return with no payload; Raw/Auth frames require
`0 < n < maxMessageSize` and `n` further bytes; everything else is
"invalid data".  A stream too short for a full read is an IO error. -/
def ReadMessage (stream : List Nat) : Except String (Nat × List Nat) :=
  match stream with
  | t :: h1 :: h2 :: rest =>
    let n := h1 * 256 + h2
    if t = PingMessage ∨ t = PongMessage ∨ t = CloseMessage then
      .ok (t, [])
    else if t = AuthMessage ∨ t = RawMessage then
      if 0 < n ∧ n < maxMessageSize ∧ n ≤ rest.length then
        .ok (t, rest.take n)
      else .error "invalid data"
    else .error "invalid data"
  | _ => .error "read: unexpected EOF"

/-- `TCPConn` (gateway.go): the socket `rwc` is external I/O and not needed by
the claims; the bounded send channel is modelled as the list of queued byte
strings, `isClose` mirrors the closed flag. -/
structure TCPConn where
  ssid : String
  send : List (List Nat)
  isClose : Bool
deriving DecidableEq

/-- `TCPConn.Write` (gateway.go): fail when closed; otherwise a non-blocking
`select`/`default` enqueue — succeeds exactly when the bounded channel
(capacity `sendQueueSize`) has room, else returns "write too busy"
immediately.  Returns the updated connection and the error, if any. -/
def TCPConn.Write (c : TCPConn) (data : List Nat) : TCPConn × Option String :=
  if c.isClose = true then (c, some "connection is closed")
  else if c.send.length < sendQueueSize then
    ({ c with send := c.send ++ [data] }, none)
  else (c, some "write too busy")

/-- `TCPConn.Close` (gateway.go): a no-op when already closed; otherwise set
the flag and close the send channel.  The returned Bool records whether
`close(c.send)` ran in this call. -/
def TCPConn.Close (c : TCPConn) : TCPConn × Bool :=
  if c.isClose = true then (c, false)
  else ({ c with isClose := true }, true)

/-- A family of independent connections indexed by connection id, as in the Go
process where each `TCPConn` owns its own `send` channel; writing on
connection `i` only involves connection `i`'s queue. -/
def WriteSys (sys : Nat → TCPConn) (i : Nat) (data : List Nat) :
    (Nat → TCPConn) × Option String :=
  let r := (sys i).Write data
  (fun j => if j = i then r.1 else sys j, r.2)

/-- C1: for every frame type in {Raw (0x01), Auth (0xF3)} and every payload of
length in [1, 32767], decoding the bytes produced by the encode path yields
exactly the original type and payload with no error. -/
theorem frame_roundtrip (mt : Nat) (data : List Nat)
    (hmt : mt = RawMessage ∨ mt = AuthMessage)
    (hlen1 : 1 ≤ data.length) (hlen2 : data.length ≤ 32767) :
    ∃ enc, NewMessageBytes mt data = .ok enc ∧ ReadMessage enc = .ok (mt, data) := by
  have hmod : mt % 256 = mt := by rcases hmt with h | h <;> subst h <;> decide
  have henc : NewMessageBytes mt data =
      .ok (mt :: data.length % 65536 / 256 :: data.length % 256 :: data) := by
    unfold NewMessageBytes putUint16
    rw [if_neg (by simp only [maxMessageSize]; omega), hmod]
  have hn : data.length % 65536 / 256 * 256 + data.length % 256 = data.length := by
    omega
  refine ⟨_, henc, ?_⟩
  have ht1 : ¬ (mt = PingMessage ∨ mt = PongMessage ∨ mt = CloseMessage) := by
    rcases hmt with h | h <;> subst h <;> decide
  simp only [ReadMessage]
  rw [if_neg ht1, if_pos (Or.symm hmt),
    if_pos (by rw [hn]; exact ⟨by omega, by simp only [maxMessageSize]; omega, le_refl _⟩),
    hn, List.take_length]

/-- Witness for `frame_roundtrip` at `mt = RawMessage`, payload `[42]`. -/
theorem frame_roundtrip_witness :
    ∃ enc, NewMessageBytes RawMessage [42] = .ok enc ∧
      ReadMessage enc = .ok (RawMessage, [42]) :=
  frame_roundtrip RawMessage [42] (Or.inl rfl) (by decide) (by decide)

/-- C2 counterexample: a payload of exactly 32768 bytes is NOT rejected by the
encode path — `NewMessageBytes` only rejects `len(data) > maxMessageSize`,
so a 32768-byte payload is accepted and encoded. -/
theorem encode_accepts_32768 :
    NewMessageBytes RawMessage (List.replicate 32768 0) =
      .ok (1 :: 128 :: 0 :: List.replicate 32768 0) := by
  unfold NewMessageBytes putUint16
  rw [List.length_replicate, if_neg (by simp only [maxMessageSize]; omega)]
  norm_num [RawMessage]

/-- C2 (amended): the encode path rejects payloads of length ≥ 32769 (i.e.
strictly greater than `maxMessageSize`), and the decode path rejects any
Raw/Auth frame whose declared length is ≥ 32768. -/
theorem oversize_rejected :
    (∀ mt data, 32769 ≤ List.length data →
      NewMessageBytes mt data = .error "too large message") ∧
    (∀ t h1 h2 rest, (t = RawMessage ∨ t = AuthMessage) → 32768 ≤ h1 * 256 + h2 →
      ReadMessage (t :: h1 :: h2 :: rest) = .error "invalid data") := by
  constructor
  · intro mt data h
    unfold NewMessageBytes
    rw [if_pos (by simp only [maxMessageSize]; omega)]
  · intro t h1 h2 rest ht hn
    have ht1 : ¬ (t = PingMessage ∨ t = PongMessage ∨ t = CloseMessage) := by
      rcases ht with h | h <;> subst h <;> decide
    simp only [ReadMessage]
    rw [if_neg ht1, if_pos (Or.symm ht),
      if_neg (by simp only [maxMessageSize]; omega)]

/-- Witness for `oversize_rejected`: a 32769-byte payload is refused by the
encoder, and a frame declaring length 32768 is refused by the decoder. -/
theorem oversize_rejected_witness :
    NewMessageBytes RawMessage (List.replicate 32769 0) = .error "too large message" ∧
    ReadMessage (RawMessage :: 128 :: 0 :: List.replicate 32768 0) =
      .error "invalid data" :=
  ⟨oversize_rejected.1 RawMessage _ (by rw [List.length_replicate]),
   oversize_rejected.2 RawMessage 128 0 _ (Or.inl rfl) (by omega)⟩

/-- C7: `Write` never blocks: on an open connection it fails immediately when
the queue holds `sendQueueSize` entries, enqueues and returns no error when
there is room, and writing on one connection leaves every other connection's
queue untouched. -/
theorem send_backpressure (c : TCPConn) (data : List Nat)
    (hopen : c.isClose = false) :
    (c.send.length = sendQueueSize → c.Write data = (c, some "write too busy")) ∧
    (c.send.length < sendQueueSize →
      c.Write data = ({ c with send := c.send ++ [data] }, none)) ∧
    (∀ sys i j d, j ≠ i → (WriteSys sys i d).1 j = sys j) := by
  refine ⟨?_, ?_, ?_⟩
  · intro hfull
    unfold TCPConn.Write
    rw [if_neg (by simp [hopen]), if_neg (by rw [hfull]; exact lt_irrefl _)]
  · intro hroom
    unfold TCPConn.Write
    rw [if_neg (by simp [hopen]), if_pos hroom]
  · intro sys i j d hij
    unfold WriteSys
    simp [hij]

/-- Witness for `send_backpressure`: an open connection with a full queue
refuses the next write. -/
theorem send_backpressure_witness :
    TCPConn.Write ⟨"s", List.replicate sendQueueSize [], false⟩ [1] =
      (⟨"s", List.replicate sendQueueSize [], false⟩, some "write too busy") :=
  (send_backpressure ⟨"s", List.replicate sendQueueSize [], false⟩ [1] rfl).1
    (by rw [List.length_replicate])

/-- C8: `Close` is idempotent: after one `Close` the connection is marked
closed, a further `Close` is a no-op that does not close the channel again,
the first `Close` on an open connection closes the channel exactly once, and
every `Write` after a `Close` fails. -/
theorem close_idempotent (c : TCPConn) :
    ((c.Close).1.isClose = true) ∧
    ((c.Close).1.Close = ((c.Close).1, false)) ∧
    (c.isClose = false → c.Close = ({ c with isClose := true }, true)) ∧
    (∀ data, ((c.Close).1.Write data).2 = some "connection is closed") := by
  by_cases hc : c.isClose = true <;>
    simp [TCPConn.Close, TCPConn.Write, hc]

/-- Witness for `close_idempotent`: the first `Close` of an open connection
marks it closed and closes the channel. -/
theorem close_idempotent_witness :
    TCPConn.Close ⟨"s", [], false⟩ = (⟨"s", [], true⟩, true) :=
  (close_idempotent ⟨"s", [], false⟩).2.2.1 rfl

/-- A command handler and its declared argument shape (`cmdEntry` in
gateway.go).  Go function values and `reflect.Type` tokens cannot be compared
or executed in the embedding, so they are abstract values of types `H` and
`T`. -/
structure cmdEntry (H T : Type) where
  h : H
  type_ : T
deriving DecidableEq

/-- `CmdSet` (gateway.go): the entry table `e` and the internal-service map
`services` (a Go map distinguishing absent from present-false, hence
`Option Bool`). -/
structure CmdSet (H T : Type) where
  services : String → Option Bool
  e : String → Option (cmdEntry H T)

variable {H T : Type}

/-- `CmdSet.Bind` (gateway.go): warn when the name already exists (the
returned Bool mirrors the `log.Warnf` call), then install the new entry —
the map assignment runs unconditionally, so a re-registration overwrites. -/
def CmdSet.Bind (s : CmdSet H T) (name : String) (h : H) (i : T) :
    CmdSet H T × Bool :=
  (⟨s.services, fun n => if n = name then some ⟨h, i⟩ else s.e n⟩,
   (s.e name).isSome)

/-- Observable dispatch outcome of `Handle`: a forward through the caller's
session (`ss.Route(serverName, name, data)`) or a local handler enqueue
(`Enqueue(ctx, e.h, args)`). -/
inductive Effect (H : Type) where
  | route (serverName name : String) (data : List Nat)
  | enqueue (h : H) (data : List Nat)
deriving DecidableEq

/-- The fields of the per-invocation `Context` that `Handle` reads: the
session id and the gateway-origin flag. -/
structure Context where
  Ssid : String
  isGateway : Bool

/-- `regexp.MatchString("^[A-Za-z0-9]+$", name)` from `CmdSet.Handle`: the
name is nonempty and every character is ASCII alphanumeric (the pattern is
constant and valid, so the Go call never errors). -/
def matchAlnum (name : String) : Bool :=
  !name.data.isEmpty && name.data.all Char.isAlphanum

/-- Modelled from the spec: the message-id router `routeMessage` is not among
the sources (only its call site in `CmdSet.Handle` is).  Per the spec (§6),
an identifier `"<serviceName>.<localName>"` names a target service in its
leading segment before the separator, and a bare identifier is local—the
supplied default server name is kept. -/
def routeMessage (serverName messageID : String) : String × String :=
  if messageID.data.contains '.' then
    (String.mk (messageID.data.takeWhile (· ≠ '.')),
     String.mk ((messageID.data.dropWhile (· ≠ '.')).drop 1))
  else (serverName, messageID)

/-- `CmdSet.Handle` (gateway.go): empty payload becomes `"{}"`; a
gateway-origin caller requires an alphanumeric local name; a non-empty
serverName routes through the caller's session when one exists (silently
dropped otherwise) — a gateway may only route to an active service; a local
message requires a bound entry, payload deserialization into the entry's
shape, and is enqueued.  `GetSession` (the session table) and
`json.Unmarshal` (success/failure against the entry's declared shape) live
outside the translated sources and are passed in as environment functions. -/
def CmdSet.Handle (s : CmdSet H T) (getSession : String → Bool)
    (unmarshal : T → List Nat → Bool) (ctx : Context)
    (messageID : String) (data : List Nat) :
    Except String (List (Effect H)) :=
  let data := if data.isEmpty then [123, 125] else data
  let p := routeMessage "" messageID
  let serverName := p.1
  let name := p.2
  if ctx.isGateway = true ∧ matchAlnum name = false then
    .error "invalid message id"
  else
    let e := s.e name
    let isService := (s.services serverName).getD false
    if serverName ≠ "" then
      if ctx.isGateway = true ∧ isService = false then
        .error "gateway try to route invalid service"
      else if getSession ctx.Ssid then
        .ok [.route serverName name data]
      else .ok []
    else
      match e with
      | none => .error "invalid message ID"
      | some entry =>
        if unmarshal entry.type_ data then .ok [.enqueue entry.h data]
        else .error "json unmarshal error"

/-- C3 counterexample: binding the same identifier twice keeps the SECOND
entry, not the first — `Bind` warns on the duplicate but then overwrites the
map slot unconditionally. -/
theorem bind_overwrites_counterexample :
    ((((⟨fun _ => none, fun _ => none⟩ : CmdSet Nat Nat).Bind "a" 1 10).1.Bind
        "a" 2 20).1.e "a" = some ⟨2, 20⟩) ∧
    (some (⟨2, 20⟩ : cmdEntry Nat Nat) ≠ some ⟨1, 10⟩) := by
  constructor
  · simp [CmdSet.Bind]
  · decide

/-- C3 (amended): a duplicate `Bind` is observed (the warning fires) and not
rejected, and the SECOND registration's handler and argument shape are the
ones in force afterwards (last write wins); unrelated identifiers are
untouched. -/
theorem bind_duplicate_warned_overwrites (s : CmdSet H T) (name : String)
    (h1 h2 : H) (t1 t2 : T) :
    (((s.Bind name h1 t1).1.Bind name h2 t2).2 = true) ∧
    (((s.Bind name h1 t1).1.Bind name h2 t2).1.e name = some ⟨h2, t2⟩) ∧
    (∀ n, n ≠ name → ((s.Bind name h1 t1).1.Bind name h2 t2).1.e n = s.e n) := by
  refine ⟨by simp [CmdSet.Bind], by simp [CmdSet.Bind], ?_⟩
  intro n hn
  simp [CmdSet.Bind, hn]

/-- Witness for `bind_duplicate_warned_overwrites` on a concrete registry. -/
theorem bind_duplicate_warned_overwrites_witness :
    ((((⟨fun _ => none, fun _ => none⟩ : CmdSet Nat Nat).Bind "b" 1 10).1.Bind
        "b" 2 20).2 = true) ∧
    ((((⟨fun _ => none, fun _ => none⟩ : CmdSet Nat Nat).Bind "b" 1 10).1.Bind
        "b" 2 20).1.e "c" = none) :=
  ⟨(bind_duplicate_warned_overwrites
      (⟨fun _ => none, fun _ => none⟩ : CmdSet Nat Nat) "b" 1 10 2 20).1,
   (bind_duplicate_warned_overwrites
      (⟨fun _ => none, fun _ => none⟩ : CmdSet Nat Nat) "b" 1 10 2 20).2.2 "c"
     (by decide)⟩

/-- C4: a routed message (non-empty serviceName) whose local name contains a
character outside [A-Za-z0-9] is rejected by `Handle` on a gateway-origin
connection; the same identifier on a non-gateway connection returns no
error. -/
theorem gateway_identifier_validation (s : CmdSet H T)
    (getSession : String → Bool) (unmarshal : T → List Nat → Bool)
    (ssid : String) (messageID : String) (data : List Nat)
    (hrouted : (routeMessage "" messageID).1 ≠ "")
    (hbad : ∃ c ∈ (routeMessage "" messageID).2.data, c.isAlphanum = false) :
    (s.Handle getSession unmarshal ⟨ssid, true⟩ messageID data
      = .error "invalid message id") ∧
    (∃ effs, s.Handle getSession unmarshal ⟨ssid, false⟩ messageID data
      = .ok effs) := by
  have hmatch : matchAlnum (routeMessage "" messageID).2 = false := by
    rcases hbad with ⟨c, hc, hcf⟩
    have hall : (routeMessage "" messageID).2.data.all Char.isAlphanum = false := by
      rw [List.all_eq_false]
      exact ⟨c, hc, by simp [hcf]⟩
    simp [matchAlnum, hall]
  constructor
  · simp [CmdSet.Handle, hmatch]
  · by_cases hs : getSession ssid
    · exact ⟨[Effect.route (routeMessage "" messageID).1
          (routeMessage "" messageID).2 (if data = [] then [123, 125] else data)],
        by simp [CmdSet.Handle, hrouted, hs]⟩
    · exact ⟨[], by simp [CmdSet.Handle, hrouted, hs]⟩

/-- Witness for `gateway_identifier_validation` at identifier "svc.bad!". -/
theorem gateway_identifier_validation_witness :
    ((⟨fun _ => none, fun _ => none⟩ : CmdSet Nat Nat).Handle (fun _ => false)
      (fun _ _ => true) ⟨"sess", true⟩ "svc.bad!" []
      = .error "invalid message id") ∧
    (∃ effs, (⟨fun _ => none, fun _ => none⟩ : CmdSet Nat Nat).Handle
      (fun _ => false) (fun _ _ => true) ⟨"sess", false⟩ "svc.bad!" []
      = .ok effs) :=
  gateway_identifier_validation ⟨fun _ => none, fun _ => none⟩ (fun _ => false)
    (fun _ _ => true) "sess" "svc.bad!" [] (by decide) (by decide)

/-- C10: a routed message that passes the gateway-side validation is silently
dropped with success by `Handle` when no session exists for the context's
session id: no error, no forward, no local handling. -/
theorem routed_no_session_dropped (s : CmdSet H T)
    (getSession : String → Bool) (unmarshal : T → List Nat → Bool)
    (ctx : Context) (messageID : String) (data : List Nat)
    (hrouted : (routeMessage "" messageID).1 ≠ "")
    (hvalid : ctx.isGateway = true →
      matchAlnum (routeMessage "" messageID).2 = true ∧
      s.services (routeMessage "" messageID).1 = some true)
    (hnosession : getSession ctx.Ssid = false) :
    s.Handle getSession unmarshal ctx messageID data = .ok [] := by
  obtain ⟨sid, g⟩ := ctx
  cases g
  · simp only at hnosession
    simp [CmdSet.Handle, hrouted, hnosession]
  · obtain ⟨hm, hsvc⟩ := hvalid rfl
    simp only at hnosession
    simp [CmdSet.Handle, hrouted, hnosession, hm, hsvc]

/-- Witness for `routed_no_session_dropped` at identifier "svc.Msg1" on a
gateway connection with "svc" an active service and no session. -/
theorem routed_no_session_dropped_witness :
    ((⟨fun n => if n = "svc" then some true else none, fun _ => none⟩ :
        CmdSet Nat Nat).Handle (fun _ => false) (fun _ _ => true)
      ⟨"sess", true⟩ "svc.Msg1" [7] = .ok []) :=
  routed_no_session_dropped
    ⟨fun n => if n = "svc" then some true else none, fun _ => none⟩
    (fun _ => false) (fun _ _ => true) ⟨"sess", true⟩ "svc.Msg1" [7]
    (by decide) (fun _ => ⟨by decide, by decide⟩) rfl

/-- Router-side `Server` (used throughout handle.go; the struct definition
itself is not among the sources).  Modelled from the spec (§3): owning
connection, name, address, opaque data, type, and gateway load weight.
Connections are identified by numeric ids standing for the Go pointer
identity of `ctx.Out`. -/
structure Server where
  out : Nat
  name : String
  addr : String
  data : String
  typ : String
  weight : Int
deriving DecidableEq

/-- Modelled from the spec: the router registry `gRouter` (§3) is not among
the sources.  The table of registered servers is keyed by unique name (held
as a list of servers with distinct names) and the gateways form an ordered
list (gateways also appear among the servers). -/
structure Router where
  servers : List Server
  gateways : List Server
deriving DecidableEq

/-- Modelled from the spec: `gRouter.GetServer(name)` — lookup among the
registered servers, no side effects. -/
def Router.GetServer (r : Router) (name : String) : Option Server :=
  r.servers.find? (fun s => s.name = name)

/-- Modelled from the spec: `gRouter.GetServerAddr(name)` — the registered
server's address, or empty when the name is unknown. -/
def Router.GetServerAddr (r : Router) (name : String) : String :=
  ((r.GetServer name).map Server.addr).getD ""

/-- Modelled from the spec: `gRouter.AddServer` upserts by name; a gateway is
also (re)inserted into the gateway list keyed by connection identity. -/
def Router.AddServer (r : Router) (s : Server) : Router :=
  let servers :=
    if r.servers.any (fun t => t.name = s.name) then
      r.servers.map (fun t => if t.name = s.name then s else t)
    else r.servers ++ [s]
  let gateways :=
    if s.typ = "gateway" then
      if r.gateways.any (fun t => t.out = s.out) then
        r.gateways.map (fun t => if t.out = s.out then s else t)
      else r.gateways ++ [s]
    else r.gateways
  ⟨servers, gateways⟩

/-- Modelled from the spec: `gRouter.GetBestGateway()` — the address of a
registered gateway of minimum current weight (ties broken by iteration
order), or the empty address when no gateway is registered. -/
def Router.GetBestGateway (r : Router) : String :=
  match r.gateways.foldl
      (fun best gw =>
        match best with
        | none => some gw
        | some b => if gw.weight < b.weight then some gw else some b)
      none with
  | some gw => gw.addr
  | none => ""

/-- One `WriteJSON` emitted by a router handler: the target connection, the
message id, and the response fields the claims observe. -/
inductive Packet where
  | registerOk (dst : Nat)
  | getServerAddr (dst : Nat) (serverName serverAddr : String)
  | getBestGateway (dst : Nat) (address : String)
  | forward (dst : Nat) (name data : String)
  | addGame (dst : Nat) (name data : String)
  | registerServiceInGateway (dst : Nat) (name : String)
deriving DecidableEq

/-- Modelled from the Go standard library contract of `net.SplitHostPort` for
the bracket-free addresses used here: split at the LAST colon into host and
port; an address without a colon is an error, returning empty host and
port (the handler discards the error). -/
def splitHostPort (s : String) : String × String :=
  if s.data.contains ':' then
    (String.mk (((s.data.reverse.dropWhile (· ≠ ':')).drop 1).reverse),
     String.mk ((s.data.reverse.takeWhile (· ≠ ':')).reverse))
  else ("", "")

/-- The fields of `Args` (handle.go). `ServerData` is kept opaque. -/
structure Args where
  ServerName : String
  ServerAddr : String
  ServerData : String
  ServerType : String
  Weight : Int
deriving DecidableEq

/-- Router-side handler context: the identity and observed remote address of
the calling connection (`ctx.Out`). -/
structure RCtx where
  out : Nat
  remoteAddr : String

/-- `C2S_Register` (handle.go): parse host/port from the supplied address,
falling back to the caller's observed remote host when the host is empty;
the stored address is empty unless an explicit port was supplied; reply
`C2S_RegisterOk`; upsert the server; then run the center directory-sync and
gateway service-registration notifications over the updated registry. -/
def C2S_Register (r : Router) (ctx : RCtx) (args : Args) :
    Router × List Packet :=
  let hp := splitHostPort args.ServerAddr
  let host := if hp.1 = "" then (splitHostPort ctx.remoteAddr).1 else hp.1
  let addr := if hp.2 ≠ "" then host ++ ":" ++ hp.2 else ""
  let newServer : Server :=
    ⟨ctx.out, args.ServerName, addr, args.ServerData, args.ServerType, 0⟩
  let r' := r.AddServer newServer
  let pkts1 :=
    if newServer.typ = "center" then
      r'.servers.map (fun sv => Packet.addGame ctx.out sv.name sv.data)
    else []
  let pkts2 := r'.servers.filterMap (fun sv =>
    if sv.typ = "center" ∧ sv.name ≠ newServer.name then
      some (Packet.addGame sv.out newServer.name newServer.data)
    else none)
  let pkts3 :=
    if newServer.typ = "gateway" then
      r'.servers.map (fun sv => Packet.registerServiceInGateway ctx.out sv.name)
    else if newServer.addr ≠ "" then
      r'.gateways.map (fun gw =>
        Packet.registerServiceInGateway gw.out newServer.name)
    else []
  (r', Packet.registerOk ctx.out :: (pkts1 ++ pkts2 ++ pkts3))

/-- `C2S_GetServerAddr` (handle.go): look up the requested name and reply
`S2C_GetServerAddr` with the (possibly empty) stored address. -/
def C2S_GetServerAddr (r : Router) (ctx : RCtx) (serverName : String) :
    List Packet :=
  [Packet.getServerAddr ctx.out serverName (r.GetServerAddr serverName)]

/-- `C2S_Concurrent` (handle.go): set `gw.weight = args.Weight` for every
gateway whose connection is the reporting one, then compute the best
gateway and, when a "login" server is registered, push
`S2C_GetBestGateway{Address}` to it.  (In Go the weight update mutates the
shared `*Server`; the claims read weights only through the gateway list,
which is what is updated here.) -/
def C2S_Concurrent (r : Router) (ctx : RCtx) (weight : Int) :
    Router × List Packet :=
  let r' : Router :=
    ⟨r.servers,
     r.gateways.map (fun gw =>
       if gw.out = ctx.out then { gw with weight := weight } else gw)⟩
  let addr := r'.GetBestGateway
  let pkts :=
    match r'.GetServer "login" with
    | some s => [Packet.getBestGateway s.out addr]
    | none => []
  (r', pkts)

/-- `ForwardArgs` (cmd package): target list, message name, raw payload. -/
structure ForwardArgs where
  ServerList : List String
  Name : String
  Data : String

/-- `C2S_Route` (handle.go): a list equal to `["*"]` expands to the distinct
names of all registered servers (the Go `prefixMap` set); each named server
that is registered receives the payload verbatim; unknown names are
skipped. -/
def C2S_Route (r : Router) (args : ForwardArgs) : List Packet :=
  let servers :=
    if args.ServerList = ["*"] then
      (r.servers.map Server.name).dedup
    else args.ServerList
  servers.filterMap (fun name =>
    (r.GetServer name).map (fun s => Packet.forward s.out args.Name args.Data))

/-- The accumulator step of `GetBestGateway` keeps a minimum-weight element:
folding from `some acc` yields a result drawn from `acc` or the list, no
heavier than `acc` or any list element. -/
lemma foldl_min_mem_le (l : List Server) (acc : Server) :
    ∃ b, l.foldl
        (fun best gw =>
          match best with
          | none => some gw
          | some bb => if gw.weight < bb.weight then some gw else some bb)
        (some acc) = some b ∧ (b = acc ∨ b ∈ l) ∧ b.weight ≤ acc.weight ∧
      ∀ x ∈ l, b.weight ≤ x.weight := by
  induction l generalizing acc with
  | nil => exact ⟨acc, rfl, Or.inl rfl, le_refl _, by simp⟩
  | cons hd tl ih =>
    simp only [List.foldl_cons]
    by_cases hlt : hd.weight < acc.weight
    · rw [if_pos hlt]
      obtain ⟨b, hb, hmem, hle, hall⟩ := ih hd
      refine ⟨b, hb, ?_, le_trans hle (le_of_lt hlt), ?_⟩
      · rcases hmem with h | h
        · exact Or.inr (by simp [h])
        · exact Or.inr (by simp [h])
      · intro x hx
        rcases List.mem_cons.mp hx with h | h
        · exact h ▸ hle
        · exact hall x h
    · rw [if_neg hlt]
      obtain ⟨b, hb, hmem, hle, hall⟩ := ih acc
      refine ⟨b, hb, ?_, hle, ?_⟩
      · rcases hmem with h | h
        · exact Or.inl h
        · exact Or.inr (by simp [h])
      · intro x hx
        rcases List.mem_cons.mp hx with h | h
        · exact h ▸ le_trans hle (not_lt.mp hlt)
        · exact hall x h

/-- `GetBestGateway` returns the empty address on an empty gateway list, and
otherwise the address of a registered gateway of minimum weight. -/
lemma getBestGateway_spec (r : Router) :
    (r.gateways = [] → r.GetBestGateway = "") ∧
    (r.gateways ≠ [] → ∃ gw ∈ r.gateways, r.GetBestGateway = gw.addr ∧
      ∀ g ∈ r.gateways, gw.weight ≤ g.weight) := by
  constructor
  · intro h
    simp [Router.GetBestGateway, h]
  · intro h
    match hg : r.gateways with
    | [] => exact absurd hg h
    | hd :: tl =>
      obtain ⟨b, hb, hmem, hle, hall⟩ := foldl_min_mem_le tl hd
      refine ⟨b, ?_, ?_, ?_⟩
      · rcases hmem with h1 | h1 <;> simp [h1]
      · simp [Router.GetBestGateway, hg, hb]
      · intro g hgmem
        rcases List.mem_cons.mp hgmem with h1 | h1
        · exact h1 ▸ hle
        · exact hall g h1

/-- C5: `C2S_Concurrent{Weight}` updates in place the weight of every gateway
whose connection equals the reporting one (all others unchanged), then
recomputes the best gateway — a registered gateway of minimum current
weight, or the empty address when none is registered — and pushes
`S2C_GetBestGateway{Address}` with that answer to the "login" server exactly
when one is registered. -/
theorem concurrent_updates_weight_and_pushes_best (r : Router) (ctx : RCtx)
    (w : Int) :
    ((C2S_Concurrent r ctx w).1.servers = r.servers) ∧
    ((C2S_Concurrent r ctx w).1.gateways = r.gateways.map (fun gw =>
      if gw.out = ctx.out then { gw with weight := w } else gw)) ∧
    (∀ s, r.GetServer "login" = some s → (C2S_Concurrent r ctx w).2 =
      [Packet.getBestGateway s.out (C2S_Concurrent r ctx w).1.GetBestGateway]) ∧
    (r.GetServer "login" = none → (C2S_Concurrent r ctx w).2 = []) ∧
    ((C2S_Concurrent r ctx w).1.gateways = [] →
      (C2S_Concurrent r ctx w).1.GetBestGateway = "") ∧
    ((C2S_Concurrent r ctx w).1.gateways ≠ [] →
      ∃ gw ∈ (C2S_Concurrent r ctx w).1.gateways,
        (C2S_Concurrent r ctx w).1.GetBestGateway = gw.addr ∧
        ∀ g ∈ (C2S_Concurrent r ctx w).1.gateways, gw.weight ≤ g.weight) := by
  refine ⟨rfl, rfl, ?_, ?_, (getBestGateway_spec _).1, (getBestGateway_spec _).2⟩
  · intro s hs
    have hs' : ∀ gws : List Server,
        Router.GetServer ⟨r.servers, gws⟩ "login" = some s := fun _ => hs
    simp [C2S_Concurrent, hs']
  · intro hn
    have hn' : ∀ gws : List Server,
        Router.GetServer ⟨r.servers, gws⟩ "login" = none := fun _ => hn
    simp [C2S_Concurrent, hn']

/-- Witness for `concurrent_updates_weight_and_pushes_best`: a gateway at
connection 7 reports weight 1; the registered "login" server at connection 5
is pushed the updated best gateway address. -/
theorem concurrent_witness :
    (C2S_Concurrent
        ⟨[⟨5, "login", "", "", "", 0⟩, ⟨7, "gw1", "1.2.3.4:9000", "", "gateway", 3⟩],
          [⟨7, "gw1", "1.2.3.4:9000", "", "gateway", 3⟩]⟩
        ⟨7, ""⟩ 1).2 =
      [Packet.getBestGateway 5 "1.2.3.4:9000"] := by
  rw [(concurrent_updates_weight_and_pushes_best
      ⟨[⟨5, "login", "", "", "", 0⟩, ⟨7, "gw1", "1.2.3.4:9000", "", "gateway", 3⟩],
        [⟨7, "gw1", "1.2.3.4:9000", "", "gateway", 3⟩]⟩
      ⟨7, ""⟩ 1).2.2.1 ⟨5, "login", "", "", "", 0⟩ rfl]
  rfl

/-- In a server list with pairwise-distinct names, looking a member's name up
finds exactly that member. -/
lemma find_name_self (l : List Server) (hnd : (l.map Server.name).Nodup) :
    ∀ s ∈ l, l.find? (fun t => t.name = s.name) = some s := by
  induction l with
  | nil => simp
  | cons hd tl ih =>
    intro s hs
    rw [List.map_cons, List.nodup_cons] at hnd
    obtain ⟨hhd, htl⟩ := hnd
    rcases List.mem_cons.mp hs with h | h
    · subst h
      exact List.find?_cons_of_pos _ (by simp)
    · have hne : ¬ hd.name = s.name := fun he =>
        hhd (he ▸ List.mem_map_of_mem Server.name h)
      rw [List.find?_cons_of_neg _ (by simpa using hne)]
      exact ih htl s h

/-- `filterMap` collapses to `map` when the function succeeds on every
element with the mapped value. -/
lemma filterMap_eq_map_of {α β : Type} (l : List α) (g : α → Option β)
    (f : α → β) (h : ∀ a ∈ l, g a = some (f a)) : l.filterMap g = l.map f := by
  induction l with
  | nil => rfl
  | cons hd tl ih =>
    rw [List.filterMap_cons, h hd (by simp), List.map_cons,
      ih (fun a ha => h a (by simp [ha]))]

/-- C6: `C2S_Route` with list exactly `["*"]` delivers the message to every
currently registered server exactly once (one packet per registry entry, no
duplicates even when a server is also a gateway, since expansion runs over
the name-keyed server table only); with an explicit name list every named
registered server receives the payload verbatim and unknown names are
silently skipped. -/
theorem route_wildcard_and_explicit (r : Router) (names : List String)
    (nm dt : String) (hnodup : (r.servers.map Server.name).Nodup) :
    (C2S_Route r ⟨["*"], nm, dt⟩ =
      r.servers.map (fun s => Packet.forward s.out nm dt)) ∧
    (names ≠ ["*"] →
      (∀ n ∈ names, ∀ s, r.GetServer n = some s →
        Packet.forward s.out nm dt ∈ C2S_Route r ⟨names, nm, dt⟩) ∧
      ((∀ n ∈ names, r.GetServer n = none) →
        C2S_Route r ⟨names, nm, dt⟩ = [])) := by
  constructor
  · have h1 : C2S_Route r ⟨["*"], nm, dt⟩ =
        ((r.servers.map Server.name).dedup).filterMap (fun name =>
          (r.GetServer name).map (fun s => Packet.forward s.out nm dt)) := by
      simp [C2S_Route]
    rw [h1, List.dedup_eq_self.mpr hnodup, List.filterMap_map]
    exact filterMap_eq_map_of _ _ _ (fun s hs => by
      simp [Function.comp, Router.GetServer, find_name_self r.servers hnodup s hs])
  · intro hne
    have h2 : C2S_Route r ⟨names, nm, dt⟩ =
        names.filterMap (fun name =>
          (r.GetServer name).map (fun s => Packet.forward s.out nm dt)) := by
      simp [C2S_Route, hne]
    constructor
    · intro n hn s hsome
      rw [h2]
      exact List.mem_filterMap.mpr ⟨n, hn, by rw [hsome]; rfl⟩
    · intro hnone
      rw [h2]
      exact List.filterMap_eq_nil_iff.mpr (fun n hn => by rw [hnone n hn]; rfl)

/-- Witness for `route_wildcard_and_explicit`: a registry holding a plain
service "a" and a server "b" that is also a gateway receives exactly one
wildcard delivery each; the explicit list ["b", "zz"] reaches "b" and the
all-unknown list ["zz"] reaches nobody. -/
theorem route_witness :
    (C2S_Route
        ⟨[⟨1, "a", "", "", "", 0⟩, ⟨2, "b", "", "", "gateway", 0⟩],
          [⟨2, "b", "", "", "gateway", 0⟩]⟩ ⟨["*"], "M", "D"⟩ =
      [Packet.forward 1 "M" "D", Packet.forward 2 "M" "D"]) ∧
    (Packet.forward 2 "M" "D" ∈ C2S_Route
        ⟨[⟨1, "a", "", "", "", 0⟩, ⟨2, "b", "", "", "gateway", 0⟩],
          [⟨2, "b", "", "", "gateway", 0⟩]⟩ ⟨["b", "zz"], "M", "D"⟩) ∧
    (C2S_Route
        ⟨[⟨1, "a", "", "", "", 0⟩, ⟨2, "b", "", "", "gateway", 0⟩],
          [⟨2, "b", "", "", "gateway", 0⟩]⟩ ⟨["zz"], "M", "D"⟩ = []) := by
  refine ⟨?_, ?_, ?_⟩
  · rw [(route_wildcard_and_explicit
        ⟨[⟨1, "a", "", "", "", 0⟩, ⟨2, "b", "", "", "gateway", 0⟩],
          [⟨2, "b", "", "", "gateway", 0⟩]⟩ [] "M" "D" (by decide)).1]
    rfl
  · exact ((route_wildcard_and_explicit
        ⟨[⟨1, "a", "", "", "", 0⟩, ⟨2, "b", "", "", "gateway", 0⟩],
          [⟨2, "b", "", "", "gateway", 0⟩]⟩ ["b", "zz"] "M" "D" (by decide)).2
        (by decide)).1 "b" (by decide) ⟨2, "b", "", "", "gateway", 0⟩ rfl
  · exact ((route_wildcard_and_explicit
        ⟨[⟨1, "a", "", "", "", 0⟩, ⟨2, "b", "", "", "gateway", 0⟩],
          [⟨2, "b", "", "", "gateway", 0⟩]⟩ ["zz"] "M" "D" (by decide)).2
        (by decide)).2 (fun n hn => by
          rcases List.mem_singleton.mp hn with rfl
          rfl)

/-- Replacing every same-named entry by `s` makes the lookup of `s.name`
return `s`, provided a match existed. -/
lemma find_replace (l : List Server) (s : Server)
    (h : l.any (fun t => t.name = s.name) = true) :
    (l.map (fun t => if t.name = s.name then s else t)).find?
      (fun t => t.name = s.name) = some s := by
  induction l with
  | nil => simp at h
  | cons hd tl ih =>
    rw [List.map_cons]
    by_cases hh : hd.name = s.name
    · rw [if_pos hh]
      exact List.find?_cons_of_pos _ (by simp)
    · rw [if_neg hh, List.find?_cons_of_neg _ (by simpa using hh)]
      apply ih
      simpa [hh] using h

/-- Appending `s` when no existing entry matches makes the lookup of `s.name`
return `s`. -/
lemma find_append (l : List Server) (s : Server)
    (h : l.any (fun t => t.name = s.name) = false) :
    (l ++ [s]).find? (fun t => t.name = s.name) = some s := by
  induction l with
  | nil => exact List.find?_cons_of_pos _ (by simp)
  | cons hd tl ih =>
    simp only [List.any_cons, Bool.or_eq_false_iff] at h
    rw [List.cons_append, List.find?_cons_of_neg _ (by simp [h.1])]
    exact ih h.2

/-- After `AddServer`, looking the new server's name up yields it (upsert). -/
lemma getServer_addServer (r : Router) (s : Server) :
    (r.AddServer s).GetServer s.name = some s := by
  simp only [Router.AddServer, Router.GetServer]
  by_cases h : r.servers.any (fun t => t.name = s.name) = true
  · rw [if_pos h]
    exact find_replace r.servers s h
  · rw [if_neg h]
    exact find_append r.servers s (by simpa using h)

/-- C9 counterexample: registering "game1" from remote "10.0.0.7:1234" with
an empty `ServerAddr` (no explicit port) stores the EMPTY address, so the
later `C2S_GetServerAddr` answer carries "" — not the observed remote host
followed by ":". -/
theorem register_empty_port_counterexample :
    (C2S_GetServerAddr (C2S_Register ⟨[], []⟩ ⟨1, "10.0.0.7:1234"⟩
        ⟨"game1", "", "", "", 0⟩).1 ⟨2, "x"⟩ "game1"
      = [Packet.getServerAddr 2 "game1" ""]) ∧
    ([Packet.getServerAddr 2 "game1" ""] ≠
      [Packet.getServerAddr 2 "game1" "10.0.0.7:"]) := by
  constructor
  · rfl
  · decide

/-- C9 (amended): after a registration whose `ServerAddr` carries no explicit
port, the router replies `C2S_RegisterOk`, the stored address is empty, and
a later `C2S_GetServerAddr{ServerName}` from any connection answers
`S2C_GetServerAddr` with the EMPTY address (the source keeps `addr = ""`
unless an explicit port was supplied). -/
theorem register_empty_port_behavior (r : Router) (ctx : RCtx) (args : Args)
    (ctx2 : RCtx) (hport : (splitHostPort args.ServerAddr).2 = "") :
    (Packet.registerOk ctx.out ∈ (C2S_Register r ctx args).2) ∧
    ((C2S_Register r ctx args).1.GetServerAddr args.ServerName = "") ∧
    (C2S_GetServerAddr (C2S_Register r ctx args).1 ctx2 args.ServerName =
      [Packet.getServerAddr ctx2.out args.ServerName ""]) := by
  have hr1 : (C2S_Register r ctx args).1 = r.AddServer
      ⟨ctx.out, args.ServerName, "", args.ServerData, args.ServerType, 0⟩ := by
    simp [C2S_Register, hport]
  have haddr : (C2S_Register r ctx args).1.GetServerAddr args.ServerName = "" := by
    rw [hr1, Router.GetServerAddr]
    rw [show Router.GetServer _ args.ServerName =
      some ⟨ctx.out, args.ServerName, "", args.ServerData, args.ServerType, 0⟩
      from getServer_addServer r _]
    rfl
  refine ⟨by simp [C2S_Register], haddr, ?_⟩
  simp [C2S_GetServerAddr, haddr]

/-- Witness for `register_empty_port_behavior`: the concrete scenario of the
claim, registering "game1" with empty address from connection 1. -/
theorem register_empty_port_witness :
    (Packet.registerOk 1 ∈ (C2S_Register ⟨[], []⟩ ⟨1, "10.0.0.7:1234"⟩
        ⟨"game1", "", "", "", 0⟩).2) ∧
    ((C2S_Register ⟨[], []⟩ ⟨1, "10.0.0.7:1234"⟩
        ⟨"game1", "", "", "", 0⟩).1.GetServerAddr "game1" = "") ∧
    (C2S_GetServerAddr (C2S_Register ⟨[], []⟩ ⟨1, "10.0.0.7:1234"⟩
        ⟨"game1", "", "", "", 0⟩).1 ⟨2, "x"⟩ "game1" =
      [Packet.getServerAddr 2 "game1" ""]) :=
  register_empty_port_behavior ⟨[], []⟩ ⟨1, "10.0.0.7:1234"⟩
    ⟨"game1", "", "", "", 0⟩ ⟨2, "x"⟩ (by decide)

end Husky
